import Mathlib

/-!
Verification of the Server_Monitor repository (`server-monitor-api/main.py`)
against its natural-language specification.

The Python module is shallowly embedded:
* exceptions become an explicit error type `Err` with the two kinds the
  handler distinguishes (`PermissionError` vs every other `Exception`);
* every `psutil`/OS query becomes a field of an `Env` record returning
  `Except Err _`, so a run of the handler is a pure function of the
  environment;
* Python floats (CPU/memory percentages, load averages, `time.time()`)
  are modelled as exact rationals `ℚ`; byte counts as `ℕ`.
-/

/-! ## Definitions -/

/-- Exceptions, split the way `metrics`'s `except` clauses split them:
`PermissionError` (raised by `_require_auth` and possibly by OS queries)
versus any other `Exception`.  Each carries `str(e)`. -/
inductive Err where
  | permission (msg : String)
  | other (msg : String)
deriving DecidableEq, Repr

/-- `str(e)` of an exception. -/
def Err.msg : Err → String
  | .permission m => m
  | .other m => m

/-- The whitespace set of Python's `str.strip()` (ASCII part). -/
def isPySpace (c : Char) : Bool :=
  c = ' ' || c = '\t' || c = '\n' || c = '\x0b' || c = '\x0c' || c = '\r'

/-- Python `str.strip()`: drop leading and trailing whitespace. -/
def pyStrip (s : String) : String :=
  ⟨((s.data.dropWhile isPySpace).reverse.dropWhile isPySpace).reverse⟩

/-- Python `str.startswith(p)`. -/
def pyStartsWith (s p : String) : Bool :=
  p.data.isPrefixOf s.data

/-- Python `str.removeprefix(p)`: drop `p` from the front when it is a
prefix, otherwise return the string unchanged. -/
def pyRemovePfx (s p : String) : String :=
  if p.data.isPrefixOf s.data then ⟨s.data.drop p.data.length⟩ else s

/-- `_require_auth(authorization)` from `main.py`, with the module-level
`MONITOR_TOKEN` passed explicitly.  `None` and the empty string are both
falsy for Python's `if not MONITOR_TOKEN`, so both disable the check; a
missing or empty `authorization` likewise fails the
`not authorization or not authorization.startswith("Bearer ")` test. -/
def requireAuth (monitorToken : Option String) (authorization : Option String) :
    Except Err Unit :=
  match monitorToken with
  | none => .ok ()
  | some t =>
    if t = "" then .ok ()
    else
      match authorization with
      | none => .error (.permission "Missing Authorization Bearer token")
      | some a =>
        if ¬ (pyStartsWith a "Bearer " = true) then
          .error (.permission "Missing Authorization Bearer token")
        else if pyStrip (pyRemovePfx a "Bearer ") ≠ t then
          .error (.permission "Invalid token")
        else .ok ()

/-- One element of `psutil.disk_partitions(all=False)`; the handler only
reads `mountpoint` and `fstype`. -/
structure Partition where
  mountpoint : String
  fstype : String
deriving DecidableEq, Repr

/-- Result shape of `psutil.disk_usage(path)`. -/
structure DiskUsage where
  total : ℕ
  used : ℕ
  free : ℕ
  percent : ℚ
deriving DecidableEq, Repr

/-- `DiskUsageItem` of `main.py`. -/
structure DiskUsageItem where
  mount : String
  total_bytes : ℕ
  used_bytes : ℕ
  free_bytes : ℕ
  percent : ℚ
deriving DecidableEq, Repr

/-- `NetIO` of `main.py`. -/
structure NetIO where
  bytes_sent : ℕ
  bytes_recv : ℕ
deriving DecidableEq, Repr

/-- Result shape of `psutil.virtual_memory()` (the fields the handler reads). -/
structure VirtualMemory where
  percent : ℚ
  total : ℕ
  used : ℕ
  available : ℕ
deriving DecidableEq, Repr

/-- `Metrics` of `main.py`. -/
structure Metrics where
  cpu_percent : ℚ
  load_avg : List ℚ
  mem_percent : ℚ
  mem_total_bytes : ℕ
  mem_used_bytes : ℕ
  mem_available_bytes : ℕ
  disk : List DiskUsageItem
  net_io : NetIO
  uptime_seconds : ℤ
  hostname : String
deriving DecidableEq, Repr

/-- Broken-down UTC time, as returned by `time.gmtime()`. -/
structure Tm where
  year : ℕ
  month : ℕ
  day : ℕ
  hour : ℕ
  minute : ℕ
  sec : ℕ
deriving DecidableEq, Repr

/-- `ApiResponse` of `main.py`. -/
structure ApiResponse where
  ok : Bool
  ts : String
  metrics : Option Metrics
  error : Option String
deriving DecidableEq, Repr

/-- The OS facilities `metrics` touches, as one record: each `psutil` call
may succeed or raise.  `MONITOR_TOKEN` and the wall-clock readings are
carried here too, so a handler run is a pure function of the record. -/
structure Env where
  monitor_token : Option String
  cpu_percent : Except Err ℚ
  getloadavg : Except Err (ℚ × ℚ × ℚ)
  virtual_memory : Except Err VirtualMemory
  disk_partitions : Except Err (List Partition)
  disk_usage : String → Except Err DiskUsage
  net_io_counters : Except Err NetIO
  time : ℚ
  boot_time : Except Err ℚ
  gethostname : Except Err String
  now : Tm

/-- Python `int(q)`: truncation toward zero. -/
def pyTrunc (q : ℚ) : ℤ :=
  if 0 ≤ q then ⌊q⌋ else ⌈q⌉

/-- The `DiskUsageItem(...)` constructor call in the disk loop. -/
def mkItem (m : String) (du : DiskUsage) : DiskUsageItem :=
  ⟨m, du.total, du.used, du.free, du.percent⟩

/-- The `for part in psutil.disk_partitions(...)` loop of `metrics`:
dedup by `seen_mounts` first, then skip the pseudo filesystem types, then
query usage, absorbing only `PermissionError` per mount; every other
exception aborts the whole loop. -/
def diskLoop (duf : String → Except Err DiskUsage) :
    List Partition → List String → List DiskUsageItem →
    Except Err (List DiskUsageItem)
  | [], _, items => .ok items
  | part :: rest, seen, items =>
    if part.mountpoint ∈ seen then
      diskLoop duf rest seen items
    else
      let seen' := part.mountpoint :: seen
      if part.fstype ∈ ["tmpfs", "devtmpfs", "squashfs"] then
        diskLoop duf rest seen' items
      else
        match duf part.mountpoint with
        | .error (.permission _) => diskLoop duf rest seen' items
        | .error e => .error e
        | .ok du => diskLoop duf rest seen' (items ++ [mkItem part.mountpoint du])

/-- The disk block of `metrics`: run the loop, then the
`if not disk_items:` fallback that queries `"/"` (this fallback call is
not wrapped in a `try`, so its exceptions propagate). -/
def diskBlock (duf : String → Except Err DiskUsage) (parts : List Partition) :
    Except Err (List DiskUsageItem) :=
  match diskLoop duf parts [] [] with
  | .error e => .error e
  | .ok items =>
    if items.isEmpty then
      match duf "/" with
      | .error e => .error e
      | .ok du => .ok [mkItem "/" du]
    else .ok items

/-- The body of `metrics`'s `try` block after `_require_auth`: the
sequential collection, every OS query propagating its exception, except
that `os.getloadavg()` failures of any kind substitute `[0.0,0.0,0.0]`. -/
def collect (env : Env) : Except Err Metrics := do
  let cpu ← env.cpu_percent
  let la :=
    match env.getloadavg with
    | .ok v => [v.1, v.2.1, v.2.2]
    | .error _ => [0, 0, 0]
  let vm ← env.virtual_memory
  let parts ← env.disk_partitions
  let items ← diskBlock env.disk_usage parts
  let net ← env.net_io_counters
  let bt ← env.boot_time
  let host ← env.gethostname
  pure
    { cpu_percent := cpu
      load_avg := la
      mem_percent := vm.percent
      mem_total_bytes := vm.total
      mem_used_bytes := vm.used
      mem_available_bytes := vm.available
      disk := items
      net_io := ⟨net.bytes_sent, net.bytes_recv⟩
      uptime_seconds := pyTrunc (env.time - bt)
      hostname := host }

/-- Digit character of `n % 10`. -/
def digitCh (n : ℕ) : Char :=
  Char.ofNat (48 + n % 10)

/-- `time.strftime("%Y-%m-%dT%H:%M:%SZ", time.gmtime())`: every field
zero-padded to its fixed width, literal `Z` suffix.  Faithful on the
ranges `time.gmtime()` produces (year ≤ 9999, two-digit fields ≤ 99). -/
def strftimeIso (t : Tm) : String :=
  ⟨[digitCh (t.year / 1000), digitCh (t.year / 100), digitCh (t.year / 10),
    digitCh t.year, '-',
    digitCh (t.month / 10), digitCh t.month, '-',
    digitCh (t.day / 10), digitCh t.day, 'T',
    digitCh (t.hour / 10), digitCh t.hour, ':',
    digitCh (t.minute / 10), digitCh t.minute, ':',
    digitCh (t.sec / 10), digitCh t.sec, 'Z']⟩

/-- The whole `try` body of `metrics`: auth check, then collection. -/
def handleBody (env : Env) (authorization : Option String) : Except Err Metrics := do
  let _ ← requireAuth env.monitor_token authorization
  collect env

/-- `metrics` of `main.py`: returns the `ApiResponse` together with the
HTTP status code (200 default; the `except PermissionError` clause sets
401, the `except Exception` clause sets 503). -/
def metricsHandler (env : Env) (authorization : Option String) :
    ApiResponse × ℕ :=
  match handleBody env authorization with
  | .ok m => (⟨true, strftimeIso env.now, some m, none⟩, 200)
  | .error (.permission msg) => (⟨false, strftimeIso env.now, none, some msg⟩, 401)
  | .error (.other msg) => (⟨false, strftimeIso env.now, none, some msg⟩, 503)

/-- `Except` success test (for stating that an outcome's success is
unaffected by some query). -/
def isOkE {α : Type} : Except Err α → Bool
  | .ok _ => true
  | .error _ => false

/-- A healthy disk-usage answer used by the concrete environments below. -/
def duOkVal : DiskUsage := ⟨100, 40, 60, 40⟩

/-- Environment in which authentication is disabled, every OS query
succeeds, except `psutil.net_io_counters()` raising `PermissionError`. -/
def envNetPerm : Env :=
  { monitor_token := none
    cpu_percent := .ok 5
    getloadavg := .ok (1, 2, 3)
    virtual_memory := .ok ⟨50, 1000, 500, 500⟩
    disk_partitions := .ok [⟨"/", "ext4"⟩]
    disk_usage := fun _ => .ok duOkVal
    net_io_counters := .error (.permission "net denied")
    time := 1000
    boot_time := .ok 100
    gethostname := .ok "host"
    now := ⟨2026, 10, 12, 0, 0, 0⟩ }

/-- Two partitions reporting the same mount `"/a"`, the first of a pseudo
filesystem type: the loop marks `"/a"` as seen while filtering the first
one out, so the second never contributes. -/
def dupParts : List Partition := [⟨"/a", "tmpfs"⟩, ⟨"/a", "ext4"⟩, ⟨"/b", "ext4"⟩]

/-- All mounts readable. -/
def dufAllOk : String → Except Err DiskUsage := fun _ => .ok duOkVal

/-- Environment in which every OS query succeeds and two real mounts are
enumerated. -/
def envAllOk : Env :=
  { monitor_token := none
    cpu_percent := .ok 5
    getloadavg := .ok (1, 2, 3)
    virtual_memory := .ok ⟨50, 1000, 500, 500⟩
    disk_partitions := .ok [⟨"/", "ext4"⟩, ⟨"/home", "ext4"⟩]
    disk_usage := dufAllOk
    net_io_counters := .ok ⟨10, 20⟩
    time := 1000
    boot_time := .ok 100
    gethostname := .ok "host"
    now := ⟨2026, 10, 12, 0, 0, 0⟩ }

/-- The snapshot `collect` produces on `envAllOk`. -/
def mAllOk : Metrics :=
  { cpu_percent := 5
    load_avg := [1, 2, 3]
    mem_percent := 50
    mem_total_bytes := 1000
    mem_used_bytes := 500
    mem_available_bytes := 500
    disk := [mkItem "/" duOkVal, mkItem "/home" duOkVal]
    net_io := ⟨10, 20⟩
    uptime_seconds := pyTrunc (1000 - 100)
    hostname := "host" }

/-- Environment where the only enumerated partition is filtered out as a
pseudo filesystem, so the root fallback must fire. -/
def envAllTmpfs : Env :=
  { envAllOk with disk_partitions := .ok [⟨"/run", "tmpfs"⟩] }

/-- The snapshot `collect` produces on `envAllTmpfs`: just the fallback
root entry. -/
def mFallback : Metrics :=
  { mAllOk with disk := [mkItem "/" duOkVal] }

/-- The disk loop of `metrics`, instrumented with the index of the
partition each entry came from (same control flow as `diskLoop`,
entries tagged with their source partition's position). -/
def diskLoopT (duf : String → Except Err DiskUsage) :
    List (ℕ × Partition) → List String → List (ℕ × DiskUsageItem) →
    Except Err (List (ℕ × DiskUsageItem))
  | [], _, items => .ok items
  | (j, part) :: rest, seen, items =>
    if part.mountpoint ∈ seen then
      diskLoopT duf rest seen items
    else
      let seen' := part.mountpoint :: seen
      if part.fstype ∈ ["tmpfs", "devtmpfs", "squashfs"] then
        diskLoopT duf rest seen' items
      else
        match duf part.mountpoint with
        | .error (.permission _) => diskLoopT duf rest seen' items
        | .error e => .error e
        | .ok du => diskLoopT duf rest seen' (items ++ [(j, mkItem part.mountpoint du)])

/-- Partition list with a tmpfs mount and a real root mount. -/
def parts6 : List Partition := [⟨"/x", "tmpfs"⟩, ⟨"/", "ext4"⟩]

/-- `envAllOk` with the load-average facility unavailable. -/
def envNoLoad : Env :=
  { envAllOk with getloadavg := .error (.other "loadavg unavailable") }

/-- The snapshot `collect` produces on `envNoLoad`. -/
def mNoLoad : Metrics := { mAllOk with load_avg := [0, 0, 0] }

/-- Shape check for `"%Y-%m-%dT%H:%M:%SZ"` output: 20 characters,
digits in the date/time positions, literal separators, and a literal
trailing `Z`. -/
def isIsoZ (s : String) : Bool :=
  s.data.length == 20 &&
  (s.data.getD 4 ' ' == '-') && (s.data.getD 7 ' ' == '-') &&
  (s.data.getD 10 ' ' == 'T') &&
  (s.data.getD 13 ' ' == ':') && (s.data.getD 16 ' ' == ':') &&
  (s.data.getD 19 ' ' == 'Z') &&
  ([0, 1, 2, 3, 5, 6, 8, 9, 11, 12, 14, 15, 17, 18].all fun i =>
    (s.data.getD i ' ').isDigit)

/-- `units` of `_bytes_to_human`. -/
def unitsList : List String := ["B", "KB", "MB", "GB", "TB", "PB"]

/-- The `while val >= 1024 and i < len(units) - 1:` loop of
`_bytes_to_human`, returning the final `val` and `i`.  Dividing a
binary64 float by 1024 only shifts its exponent, and every comparison
boundary the loop meets (`1024^k`, `k ≤ 5`) lies below 2^53, so the ℚ
model computes exactly the float loop's result for every `n : ℕ`. -/
def bth_go (val : ℚ) (i : ℕ) : ℚ × ℕ :=
  if 1024 ≤ val ∧ i < unitsList.length - 1 then bth_go (val / 1024) (i + 1)
  else (val, i)
termination_by unitsList.length - 1 - i
decreasing_by simp_all [unitsList]; omega

/-- Round half to even, as CPython's `"%.1f"` applies to the scaled
value (the loop's `val` is an exact binary rational). -/
def rhe (q : ℚ) : ℤ :=
  if q - ⌊q⌋ < 1 / 2 then ⌊q⌋
  else if 1 / 2 < q - ⌊q⌋ then ⌊q⌋ + 1
  else if ⌊q⌋ % 2 = 0 then ⌊q⌋ else ⌊q⌋ + 1

/-- Rendering of `f"{val:.1f}"` for the nonnegative values this module
formats: the rounded tenths count, split as `intpart.digit`. -/
def renderT (t : ℤ) : String :=
  toString (t.toNat / 10) ++ "." ++ toString (t.toNat % 10)

/-- `_bytes_to_human(n)` for a nonnegative byte count `n`. -/
def bytesToHuman (n : ℕ) : String :=
  let p := bth_go (n : ℚ) 0
  renderT (rhe (10 * p.1)) ++ unitsList.getD p.2 ""

/-- The unit index `i` the loop ends with. -/
def bthTier (n : ℕ) : ℕ := (bth_go (n : ℚ) 0).2

/-- The value `val` the loop ends with. -/
def bthVal (n : ℕ) : ℚ := (bth_go (n : ℚ) 0).1

/-- The displayed numeric value, in tenths. -/
def bthTenths (n : ℕ) : ℤ := rhe (10 * bthVal n)

/-- The unit suffix of the formatted output. -/
def bthUnit (n : ℕ) : String := unitsList.getD (bthTier n) ""

/-! ## Theorems -/

theorem pyStartsWith_iff (s p : String) :
    pyStartsWith s p = true ↔ ∃ r, s = p ++ r := by
  unfold pyStartsWith
  rw [List.isPrefixOf_iff_prefix]
  constructor
  · rintro ⟨t, ht⟩
    exact ⟨⟨t⟩, by cases s; cases p; simp_all [String.ext_iff]⟩
  · rintro ⟨r, rfl⟩
    exact ⟨r.data, by cases r; cases p; simp [String.ext_iff]⟩

theorem pyRemovePfx_append (p r : String) : pyRemovePfx (p ++ r) p = r := by
  unfold pyRemovePfx
  cases p with | _ pd => cases r with | _ rd =>
  simp [String.ext_iff, List.isPrefixOf_iff_prefix]

/-- C1: with a configured non-empty secret, `_require_auth` succeeds iff the
header is present, begins with the literal `"Bearer "`, and the remainder
stripped of surrounding whitespace equals the secret. -/
theorem requireAuth_configured_iff (t : String) (ht : t ≠ "") (auth : Option String) :
    requireAuth (some t) auth = .ok () ↔
      ∃ rest, auth = some ("Bearer " ++ rest) ∧ pyStrip rest = t := by
  unfold requireAuth
  cases auth with
  | none => simp [ht]
  | some a =>
    simp only [ht, if_false]
    constructor
    · intro h
      by_cases hpre : pyStartsWith a "Bearer " = true
      · obtain ⟨r, rfl⟩ := (pyStartsWith_iff a "Bearer ").mp hpre
        refine ⟨r, rfl, ?_⟩
        by_contra hne
        simp [hpre, pyRemovePfx_append, hne] at h
      · simp [hpre] at h
    · rintro ⟨rest, hsome, hstrip⟩
      obtain rfl : a = "Bearer " ++ rest := by injection hsome
      have hpre : pyStartsWith ("Bearer " ++ rest) "Bearer " = true :=
        (pyStartsWith_iff _ _).mpr ⟨rest, rfl⟩
      simp [hpre, pyRemovePfx_append, hstrip]

/-- Witness for C1 at the spec's own example: secret `"abc123"`, header
`"Bearer abc123"`. -/
theorem requireAuth_configured_iff_witness :
    requireAuth (some "abc123") (some "Bearer abc123") = .ok () :=
  (requireAuth_configured_iff "abc123" (by decide) (some "Bearer abc123")).mpr
    ⟨"abc123", by decide, by decide⟩

/-- C3: with the secret absent or empty, `_require_auth` always succeeds,
whatever the header. -/
theorem requireAuth_disabled (auth : Option String) :
    requireAuth none auth = .ok () ∧ requireAuth (some "") auth = .ok () := by
  cases auth <;> exact ⟨rfl, rfl⟩

@[simp] theorem exbind_ok {α β : Type} (a : α) (f : α → Except Err β) :
    (Except.ok a >>= f) = f a := rfl

@[simp] theorem exbind_error {α β : Type} (e : Err) (f : α → Except Err β) :
    ((Except.error e : Except Err α) >>= f) = .error e := rfl

/-- `_require_auth` only ever raises `PermissionError`. -/
theorem requireAuth_error_perm (t a : Option String) (e : Err)
    (h : requireAuth t a = .error e) : ∃ msg, e = .permission msg := by
  cases t with
  | none => cases h
  | some s =>
    cases a with
    | none =>
      by_cases hs : s = "" <;> simp only [requireAuth, hs, if_true, if_false] at h
      · cases h
      · exact ⟨_, (Except.error.inj h).symm⟩
    | some hdr =>
      by_cases hs : s = "" <;> simp only [requireAuth, hs, if_true, if_false] at h
      · cases h
      · split_ifs at h with h1 h2 <;> (try cases h) <;> exact ⟨_, rfl⟩

/-- C2 counterexample: with auth disabled, an OS-metrics query
(`net_io_counters`, not the absorbed per-mount case) failing with a
permission error is surfaced with status 401, not 503 — so `Unauthorized`
does not arise only from client credentials. -/
theorem collection_perm_error_gives_401 :
    envNetPerm.monitor_token = none ∧
    collect envNetPerm = .error (.permission "net denied") ∧
    (metricsHandler envNetPerm none).2 = 401 :=
  ⟨rfl, rfl, rfl⟩

/-- C2 amended: a failure is surfaced with status 401 exactly when the
raised error is of the permission kind (authentication failures always
are, but OS permission errors outside the absorbed per-mount case take
this path too), and with 503 when it is any other error. -/
theorem metrics_error_routing (env : Env) (auth : Option String) :
    (∀ msg, handleBody env auth = .error (.permission msg) →
        metricsHandler env auth = (⟨false, strftimeIso env.now, none, some msg⟩, 401)) ∧
    (∀ msg, handleBody env auth = .error (.other msg) →
        metricsHandler env auth = (⟨false, strftimeIso env.now, none, some msg⟩, 503)) ∧
    (∀ e, requireAuth env.monitor_token auth = .error e →
        ∃ msg, e = .permission msg ∧ (metricsHandler env auth).2 = 401) := by
  refine ⟨?_, ?_, ?_⟩
  · intro msg h
    simp [metricsHandler, h]
  · intro msg h
    simp [metricsHandler, h]
  · intro e h
    obtain ⟨msg, rfl⟩ := requireAuth_error_perm _ _ _ h
    have hb : handleBody env auth = .error (.permission msg) := by
      unfold handleBody
      rw [h]
      rfl
    exact ⟨msg, rfl, by simp [metricsHandler, hb]⟩

/-- Witness for the amended C2 at `envNetPerm`. -/
theorem metrics_error_routing_witness :
    metricsHandler envNetPerm none =
      (⟨false, strftimeIso envNetPerm.now, none, some "net denied"⟩, 401) :=
  (metrics_error_routing envNetPerm none).1 "net denied" rfl

/-- C4 counterexample: `dupParts` has two partitions with mount path
`"/a"`, yet the loop result contains zero entries for `"/a"` — filtering
does not happen before deduplication; the tmpfs occurrence claims the
mount and is then discarded. -/
theorem diskLoop_dup_mount_zero_entries :
    dupParts.countP (fun p => p.mountpoint == "/a") = 2 ∧
    diskLoop dufAllOk dupParts [] [] = .ok [mkItem "/b" duOkVal] ∧
    List.countP (fun it => it.mount == "/a") [mkItem "/b" duOkVal] = 0 :=
  ⟨rfl, rfl, rfl⟩

/-- The loop never emits two entries for one mount path: whatever it
appends was unseen, and everything already present is seen. -/
theorem diskLoop_nodup (duf : String → Except Err DiskUsage)
    (parts : List Partition) :
    ∀ seen items out, (∀ it ∈ items, it.mount ∈ seen) →
      (items.map DiskUsageItem.mount).Nodup →
      diskLoop duf parts seen items = .ok out →
      (out.map DiskUsageItem.mount).Nodup := by
  induction parts with
  | nil =>
    intro seen items out _ hnd h
    obtain rfl : items = out := by
      simpa [diskLoop] using h
    exact hnd
  | cons part rest ih =>
    intro seen items out hsub hnd h
    by_cases hm : part.mountpoint ∈ seen
    · rw [diskLoop, if_pos hm] at h
      exact ih seen items out hsub hnd h
    · rw [diskLoop, if_neg hm] at h
      by_cases hf : part.fstype ∈ ["tmpfs", "devtmpfs", "squashfs"]
      · rw [if_pos hf] at h
        exact ih _ items out (fun it hit => List.mem_cons_of_mem _ (hsub it hit)) hnd h
      · rw [if_neg hf] at h
        rcases hdu : duf part.mountpoint with e | du
        · rcases e with msg | msg <;> rw [hdu] at h
          · exact ih _ items out (fun it hit => List.mem_cons_of_mem _ (hsub it hit)) hnd h
          · cases h
        · rw [hdu] at h
          refine ih _ _ out ?_ ?_ h
          · intro it hit
            rcases List.mem_append.mp hit with hl | hr
            · exact List.mem_cons_of_mem _ (hsub it hl)
            · simp only [List.mem_singleton] at hr
              subst hr
              exact List.mem_cons_self _ _
          · have hnew : part.mountpoint ∉ items.map DiskUsageItem.mount := by
              intro hmem
              obtain ⟨it, hit, hmt⟩ := List.mem_map.mp hmem
              exact hm (hmt ▸ hsub it hit)
            simp [List.nodup_append, hnd, hnew, mkItem]

/-- The disk block of `collect`, extracted from a successful run. -/
theorem collect_ok_disk (env : Env) (m : Metrics) (h : collect env = .ok m) :
    ∃ parts, env.disk_partitions = .ok parts ∧
      diskBlock env.disk_usage parts = .ok m.disk := by
  rcases h1 : env.cpu_percent with e1 | cpu <;> simp [collect, h1] at h
  rcases h2 : env.virtual_memory with e2 | vm <;> simp [h2] at h
  rcases h3 : env.disk_partitions with e3 | parts <;> simp [h3] at h
  rcases h4 : diskBlock env.disk_usage parts with e4 | items <;> simp [h4] at h
  rcases h5 : env.net_io_counters with e5 | net <;> simp [h5] at h
  rcases h6 : env.boot_time with e6 | bt <;> simp [h6] at h
  rcases h7 : env.gethostname with e7 | host <;> simp [h7] at h
  exact ⟨parts, rfl, by rw [h4, ← h]⟩

/-- C4 amended: any mount path occurs at most once in a collected
snapshot's disk sequence (deduplication happens before the fstype filter,
so a path may also end up with zero entries, as the counterexample
shows). -/
theorem collect_disk_mounts_nodup (env : Env) (m : Metrics)
    (h : collect env = .ok m) : (m.disk.map DiskUsageItem.mount).Nodup := by
  obtain ⟨parts, _, hdb⟩ := collect_ok_disk env m h
  unfold diskBlock at hdb
  rcases hl : diskLoop env.disk_usage parts [] [] with e | items <;>
    simp only [hl] at hdb
  · cases hdb
  · by_cases he : items.isEmpty
    · rw [if_pos he] at hdb
      rcases hr : env.disk_usage "/" with e | du <;> simp only [hr] at hdb
      · cases hdb
      · have hdisk : m.disk = [mkItem "/" du] := (Except.ok.inj hdb).symm
        rw [hdisk]
        simp
    · rw [if_neg he] at hdb
      have hdisk : m.disk = items := (Except.ok.inj hdb).symm
      rw [hdisk]
      exact diskLoop_nodup env.disk_usage parts [] [] items (by simp) (by simp) hl

/-- Witness for the amended C4 on a concrete successful collection. -/
theorem collect_disk_mounts_nodup_witness :
    collect envAllOk = .ok mAllOk ∧
    (mAllOk.disk.map DiskUsageItem.mount).Nodup :=
  ⟨rfl, collect_disk_mounts_nodup envAllOk mAllOk rfl⟩

/-- C5: a successful collection never carries an empty disk sequence: if
the loop ends empty, the un-absorbed fallback `disk_usage("/")` either
contributes the single entry or fails the whole collection. -/
theorem collect_disk_nonempty (env : Env) (m : Metrics)
    (h : collect env = .ok m) : m.disk ≠ [] := by
  obtain ⟨parts, _, hdb⟩ := collect_ok_disk env m h
  unfold diskBlock at hdb
  rcases hl : diskLoop env.disk_usage parts [] [] with e | items <;>
    simp only [hl] at hdb
  · cases hdb
  · by_cases he : items.isEmpty
    · rw [if_pos he] at hdb
      rcases hr : env.disk_usage "/" with e | du <;> simp only [hr] at hdb
      · cases hdb
      · have hdisk : m.disk = [mkItem "/" du] := (Except.ok.inj hdb).symm
        simp [hdisk]
    · rw [if_neg he] at hdb
      have hdisk : m.disk = items := (Except.ok.inj hdb).symm
      rw [hdisk]
      intro hnil
      exact he (by simp [hnil])

/-- Witness for C5: filtering removed every mount, the fallback produced
the guaranteed single entry. -/
theorem collect_disk_nonempty_witness :
    collect envAllTmpfs = .ok mFallback ∧ mFallback.disk ≠ [] :=
  ⟨rfl, collect_disk_nonempty envAllTmpfs mFallback rfl⟩

/-- Forgetting the tags recovers the source's loop exactly. -/
theorem diskLoopT_map (duf : String → Except Err DiskUsage)
    (ps : List (ℕ × Partition)) :
    ∀ seen titems,
      diskLoop duf (ps.map Prod.snd) seen (titems.map Prod.snd) =
        Except.map (List.map Prod.snd) (diskLoopT duf ps seen titems) := by
  induction ps with
  | nil => intro seen titems; simp [diskLoop, diskLoopT, Except.map]
  | cons q rest ih =>
    obtain ⟨j, part⟩ := q
    intro seen titems
    rw [List.map_cons, diskLoop, diskLoopT]
    by_cases hm : part.mountpoint ∈ seen
    · rw [if_pos hm, if_pos hm]
      exact ih seen titems
    · rw [if_neg hm, if_neg hm]
      by_cases hf : part.fstype ∈ ["tmpfs", "devtmpfs", "squashfs"]
      · rw [if_pos hf, if_pos hf]
        exact ih _ titems
      · rw [if_neg hf, if_neg hf]
        rcases hdu : duf part.mountpoint with e | du
        · rcases e with m1 | m1 <;> simp only [hdu]
          · exact ih _ titems
          · simp [Except.map]
        · simp only [hdu]
          have := ih (part.mountpoint :: seen) (titems ++ [(j, mkItem part.mountpoint du)])
          simpa using this

/-- Every tagged entry the loop emits either was already present or
stems from a listed partition whose fstype is not synthetic. -/
theorem diskLoopT_sources (duf : String → Except Err DiskUsage)
    (ps : List (ℕ × Partition)) :
    ∀ seen titems touts, diskLoopT duf ps seen titems = .ok touts →
      ∀ te ∈ touts, te ∈ titems ∨
        ∃ part, (te.1, part) ∈ ps ∧
          part.fstype ∉ ["tmpfs", "devtmpfs", "squashfs"] := by
  induction ps with
  | nil =>
    intro seen titems touts h te hte
    left
    obtain rfl : titems = touts := by simpa [diskLoopT] using h
    exact hte
  | cons q rest ih =>
    obtain ⟨j, part⟩ := q
    intro seen titems touts h te hte
    rw [diskLoopT] at h
    by_cases hm : part.mountpoint ∈ seen
    · rw [if_pos hm] at h
      rcases ih _ _ _ h te hte with hl | ⟨pp, hpp, hnf⟩
      · exact Or.inl hl
      · exact Or.inr ⟨pp, List.mem_cons_of_mem _ hpp, hnf⟩
    · rw [if_neg hm] at h
      by_cases hf : part.fstype ∈ ["tmpfs", "devtmpfs", "squashfs"]
      · rw [if_pos hf] at h
        rcases ih _ _ _ h te hte with hl | ⟨pp, hpp, hnf⟩
        · exact Or.inl hl
        · exact Or.inr ⟨pp, List.mem_cons_of_mem _ hpp, hnf⟩
      · rw [if_neg hf] at h
        rcases hdu : duf part.mountpoint with e | du
        · rcases e with m1 | m1 <;> rw [hdu] at h
          · rcases ih _ _ _ h te hte with hl | ⟨pp, hpp, hnf⟩
            · exact Or.inl hl
            · exact Or.inr ⟨pp, List.mem_cons_of_mem _ hpp, hnf⟩
          · cases h
        · rw [hdu] at h
          rcases ih _ _ _ h te hte with hl | ⟨pp, hpp, hnf⟩
          · rcases List.mem_append.mp hl with h1 | h2
            · exact Or.inl h1
            · simp only [List.mem_singleton] at h2
              subst h2
              exact Or.inr ⟨part, List.mem_cons_self _ _, hf⟩
          · exact Or.inr ⟨pp, List.mem_cons_of_mem _ hpp, hnf⟩

/-- C6: a partition with a synthetic/pseudo filesystem type (tmpfs,
devtmpfs, squashfs) contributes no disk entry: in the instrumented loop
(whose untagged projection is the source loop, `diskLoopT_map`), no
emitted entry carries that partition's index.  (The fallback root entry
of `diskBlock` is produced by a direct root query, not by any
enumerated partition.) -/
theorem synthetic_partition_no_entry (duf : String → Except Err DiskUsage)
    (parts : List Partition) (i : ℕ) (p : Partition)
    (hp : parts[i]? = some p)
    (hf : p.fstype ∈ ["tmpfs", "devtmpfs", "squashfs"])
    (touts : List (ℕ × DiskUsageItem))
    (h : diskLoopT duf parts.enum [] [] = .ok touts) :
    touts.all (fun te => te.1 != i) = true := by
  rw [List.all_eq_true]
  intro te hte
  rcases diskLoopT_sources duf parts.enum [] [] touts h te hte with h0 | ⟨part, hmem, hnf⟩
  · cases h0
  · rw [bne_iff_ne]
    rintro rfl
    rw [List.mk_mem_enum_iff_getElem?, hp] at hmem
    obtain rfl : p = part := by injection hmem
    exact hnf hf

/-- Witness for C6: on `parts6` the loop emits only the entry of
partition 1; no entry is tagged with the tmpfs partition's index 0. -/
theorem synthetic_partition_no_entry_witness :
    List.all [(1, mkItem "/" duOkVal)] (fun te => te.1 != 0) = true :=
  synthetic_partition_no_entry dufAllOk parts6 0 ⟨"/x", "tmpfs"⟩ rfl (by decide)
    [(1, mkItem "/" duOkVal)] rfl

/-- The `load_avg` of a successful collection is what the `try` around
`os.getloadavg()` computed: the OS triple on success, `[0,0,0]` on any
failure. -/
theorem collect_load_avg (env : Env) (m : Metrics) (h : collect env = .ok m) :
    m.load_avg =
      (match env.getloadavg with
       | .ok v => [v.1, v.2.1, v.2.2]
       | .error _ => [0, 0, 0]) := by
  rcases h1 : env.cpu_percent with e1 | cpu <;> simp [collect, h1] at h
  rcases h2 : env.virtual_memory with e2 | vm <;> simp [h2] at h
  rcases h3 : env.disk_partitions with e3 | parts <;> simp [h3] at h
  rcases h4 : diskBlock env.disk_usage parts with e4 | items <;> simp [h4] at h
  rcases h5 : env.net_io_counters with e5 | net <;> simp [h5] at h
  rcases h6 : env.boot_time with e6 | bt <;> simp [h6] at h
  rcases h7 : env.gethostname with e7 | host <;> simp [h7] at h
  rw [← h]

/-- Success of `collect` does not depend on the load-average query. -/
theorem collect_isOk_ignores_loadavg (env : Env)
    (x y : Except Err (ℚ × ℚ × ℚ)) :
    isOkE (collect {env with getloadavg := x}) =
      isOkE (collect {env with getloadavg := y}) := by
  rcases h1 : env.cpu_percent with e1 | cpu <;> simp [collect, h1]
  rcases h2 : env.virtual_memory with e2 | vm <;> simp [h2]
  rcases h3 : env.disk_partitions with e3 | parts <;> simp [h3]
  rcases h4 : diskBlock env.disk_usage parts with e4 | items <;> simp [h4]
  rcases h5 : env.net_io_counters with e5 | net <;> simp [h5]
  rcases h6 : env.boot_time with e6 | bt <;> simp [h6]
  rcases h7 : env.gethostname with e7 | host <;> simp [h7]
  rfl

/-- C7: when `os.getloadavg()` raises, the collector substitutes
`[0.0, 0.0, 0.0]`, and whether the collection succeeds is unaffected by
the load-average facility — its unavailability is never a collection
failure. -/
theorem loadavg_unavailable_graceful (env : Env) (e : Err) :
    (∀ m, collect {env with getloadavg := .error e} = .ok m →
        m.load_avg = [0, 0, 0]) ∧
    (∀ x, isOkE (collect {env with getloadavg := .error e}) =
        isOkE (collect {env with getloadavg := x})) :=
  ⟨fun m h => collect_load_avg _ m h,
   fun x => collect_isOk_ignores_loadavg env (.error e) x⟩

/-- Witness for C7: a concrete run with `getloadavg` raising still
succeeds, with `load_avg = [0,0,0]`. -/
theorem loadavg_unavailable_graceful_witness :
    collect envNoLoad = .ok mNoLoad ∧ mNoLoad.load_avg = [0, 0, 0] :=
  ⟨rfl,
   (loadavg_unavailable_graceful envAllOk (.other "loadavg unavailable")).1
     mNoLoad rfl⟩

theorem digitCh_isDigit (n : ℕ) : (digitCh n).isDigit = true := by
  have h : n % 10 < 10 := Nat.mod_lt _ (by norm_num)
  unfold digitCh
  set k := n % 10 with hk
  interval_cases k <;> decide

theorem isIsoZ_strftime (t : Tm) : isIsoZ (strftimeIso t) = true := by
  simp [isIsoZ, strftimeIso, List.getD, digitCh_isDigit]

/-- C8: every response of the metrics endpoint populates exactly one
variant (success: snapshot and no error; failure: error and no
snapshot, `ok` flag matching), and its timestamp is the UTC ISO-8601
second-precision string with a literal `Z` suffix. -/
theorem metrics_response_wellformed (env : Env) (auth : Option String) :
    (((metricsHandler env auth).1.ok = true ∧
        ((metricsHandler env auth).1.metrics).isSome = true ∧
        (metricsHandler env auth).1.error = none) ∨
      ((metricsHandler env auth).1.ok = false ∧
        (metricsHandler env auth).1.metrics = none ∧
        ((metricsHandler env auth).1.error).isSome = true)) ∧
    (metricsHandler env auth).1.ts = strftimeIso env.now ∧
    isIsoZ ((metricsHandler env auth).1.ts) = true := by
  rcases h : handleBody env auth with e | m
  · rcases e with msg | msg <;> simp [metricsHandler, h, isIsoZ_strftime]
  · simp [metricsHandler, h, isIsoZ_strftime]

theorem bth_go_eq (val : ℚ) (i : ℕ) :
    bth_go val i =
      if 1024 ≤ val ∧ i < unitsList.length - 1 then bth_go (val / 1024) (i + 1)
      else (val, i) := by
  rw [bth_go]

theorem bth_go_snd_le (val : ℚ) (i : ℕ) : i ≤ 5 → (bth_go val i).2 ≤ 5 := by
  induction val, i using bth_go.induct with
  | case1 val i hcond ih =>
    intro _
    rw [bth_go_eq, if_pos hcond]
    apply ih
    simp [unitsList] at hcond
    omega
  | case2 val i hcond =>
    intro h
    rw [bth_go_eq, if_neg hcond]
    exact h

theorem bth_go_snd_ge (val : ℚ) (i : ℕ) : i ≤ (bth_go val i).2 := by
  induction val, i using bth_go.induct with
  | case1 val i hcond ih =>
    rw [bth_go_eq, if_pos hcond]
    omega
  | case2 val i hcond =>
    rw [bth_go_eq, if_neg hcond]

/-- The loop only ever divides: its final value is the input scaled by
`1024^(final i - initial i)`. -/
theorem bth_go_fst (val : ℚ) (i : ℕ) :
    (bth_go val i).1 = val / 1024 ^ ((bth_go val i).2 - i) := by
  induction val, i using bth_go.induct with
  | case1 val i hcond ih =>
    rw [bth_go_eq, if_pos hcond]
    rw [ih]
    have hge : i + 1 ≤ (bth_go (val / 1024) (i + 1)).2 := bth_go_snd_ge _ _
    have hk : (bth_go (val / 1024) (i + 1)).2 - i =
        ((bth_go (val / 1024) (i + 1)).2 - (i + 1)) + 1 := by omega
    rw [hk, pow_succ, div_div, mul_comm]
  | case2 val i hcond =>
    rw [bth_go_eq, if_neg hcond]
    simp

/-- Once `val` is at least `1024^(5-i)`, the loop runs all the way to
the last unit index. -/
theorem bth_go_pb (val : ℚ) (i : ℕ) :
    i ≤ 5 → (1024 : ℚ) ^ (5 - i) ≤ val → (bth_go val i).2 = 5 := by
  induction val, i using bth_go.induct with
  | case1 val i hcond ih =>
    intro hi hv
    rw [bth_go_eq, if_pos hcond]
    have hcond' := hcond
    simp [unitsList] at hcond'
    apply ih (by omega)
    have h1 : (5 : ℕ) - i = (5 - (i + 1)) + 1 := by omega
    rw [h1, pow_succ] at hv
    rw [le_div_iff (by norm_num : (0:ℚ) < 1024)]
    exact hv
  | case2 val i hcond =>
    intro hi hv
    rw [bth_go_eq, if_neg hcond]
    simp [unitsList] at hcond
    by_contra hne
    have hi5 : i < 5 := by omega
    have h1024 : (1024 : ℚ) ≤ val :=
      le_trans (le_self_pow (by norm_num) (by omega)) hv
    have := hcond h1024
    omega

theorem rhe_floor_le (q : ℚ) : ⌊q⌋ ≤ rhe q := by
  unfold rhe
  split_ifs <;> omega

theorem rhe_le_floor_succ (q : ℚ) : rhe q ≤ ⌊q⌋ + 1 := by
  unfold rhe
  split_ifs <;> omega

/-- Round-half-even is monotone. -/
theorem rhe_mono {q1 q2 : ℚ} (h : q1 ≤ q2) : rhe q1 ≤ rhe q2 := by
  rcases lt_or_ge ⌊q1⌋ ⌊q2⌋ with hf | hf
  · have h1 : rhe q1 ≤ ⌊q1⌋ + 1 := rhe_le_floor_succ q1
    have h2 : ⌊q2⌋ ≤ rhe q2 := rhe_floor_le q2
    omega
  · have hfe : ⌊q1⌋ = ⌊q2⌋ := le_antisymm (Int.floor_le_floor h) hf
    have hq : q1 - (⌊q2⌋ : ℚ) ≤ q2 - (⌊q2⌋ : ℚ) := by linarith
    unfold rhe
    rw [hfe]
    split_ifs <;> first | omega | linarith

theorem rhe_intCast (k : ℤ) : rhe (k : ℚ) = k := by
  unfold rhe
  rw [Int.floor_intCast]
  norm_num

theorem bthUnit_le (n : ℕ) : bthTier n ≤ 5 :=
  bth_go_snd_le _ 0 (by norm_num)

theorem bthUnit_inj (n1 n2 : ℕ) (h : bthUnit n1 = bthUnit n2) :
    bthTier n1 = bthTier n2 := by
  have h1 := bthUnit_le n1
  have h2 := bthUnit_le n2
  unfold bthUnit at h
  set a := bthTier n1
  set b := bthTier n2
  interval_cases a <;> interval_cases b <;> simp_all [unitsList]

/-- C10: `_bytes_to_human` is total on every nonnegative integer, its
output carries one of the six unit suffixes, and from `1024^5` on the
suffix is capped at `"PB"` (`i` never exceeds the last unit index). -/
theorem bytesToHuman_unit_total (n : ℕ) :
    bytesToHuman n = renderT (bthTenths n) ++ bthUnit n ∧
    bthUnit n ∈ unitsList ∧
    (1024 ^ 5 ≤ n → bthUnit n = "PB") := by
  refine ⟨rfl, ?_, ?_⟩
  · have h := bthUnit_le n
    unfold bthUnit
    set a := bthTier n
    interval_cases a <;> simp [unitsList]
  · intro h
    have hc : (1024 : ℚ) ^ (5 - 0) ≤ (n : ℚ) := by
      push_cast
      exact_mod_cast Nat.cast_le.mpr h
    have := bth_go_pb (n : ℚ) 0 (by norm_num) hc
    unfold bthUnit bthTier
    rw [this]
    rfl

/-- Witness for C10 at `n = 1024^5`. -/
theorem bytesToHuman_unit_total_witness : bthUnit (1024 ^ 5) = "PB" :=
  (bytesToHuman_unit_total (1024 ^ 5)).2.2 (le_refl _)

/-- C9: within one unit tier the displayed value is monotone, and the
tier escalates at the 1024 boundaries: `1023 → "1023.0B"`,
`1024 → "1.0KB"`, `1048576 → "1.0MB"`. -/
theorem bytesToHuman_monotone :
    (∀ n1 n2 : ℕ, n1 < n2 → bthUnit n1 = bthUnit n2 →
        bthTenths n1 ≤ bthTenths n2) ∧
    bytesToHuman 1023 = "1023.0B" ∧
    bytesToHuman 1024 = "1.0KB" ∧
    bytesToHuman 1048576 = "1.0MB" := by
  refine ⟨?_, ?_, ?_, ?_⟩
  · intro n1 n2 hlt hunit
    have ht := bthUnit_inj n1 n2 hunit
    unfold bthTenths bthVal
    apply rhe_mono
    rw [bth_go_fst (n1 : ℚ) 0, bth_go_fst (n2 : ℚ) 0]
    have ht' : (bth_go (n1 : ℚ) 0).2 = (bth_go (n2 : ℚ) 0).2 := ht
    rw [ht']
    have hle : (n1 : ℚ) ≤ (n2 : ℚ) := by exact_mod_cast hlt.le
    gcongr
  · have h1 : bth_go ((1023 : ℕ) : ℚ) 0 = (1023, 0) := by
      rw [bth_go_eq]; norm_num [unitsList]
    simp only [bytesToHuman, h1]
    have h2 : (10 : ℚ) * 1023 = ((10230 : ℤ) : ℚ) := by norm_num
    rw [h2, rhe_intCast]
    rfl
  · have h1 : bth_go ((1024 : ℕ) : ℚ) 0 = (1, 1) := by
      rw [bth_go_eq]
      norm_num [unitsList]
      rw [bth_go_eq]
      norm_num
    simp only [bytesToHuman, h1]
    have h2 : (10 : ℚ) * 1 = ((10 : ℤ) : ℚ) := by norm_num
    rw [h2, rhe_intCast]
    rfl
  · have h1 : bth_go ((1048576 : ℕ) : ℚ) 0 = (1, 2) := by
      rw [bth_go_eq]
      norm_num [unitsList]
      rw [bth_go_eq]
      norm_num [unitsList]
      rw [bth_go_eq]
      norm_num
    simp only [bytesToHuman, h1]
    have h2 : (10 : ℚ) * 1 = ((10 : ℤ) : ℚ) := by norm_num
    rw [h2, rhe_intCast]
    rfl

/-- Witness for C9's monotonicity at `100 < 200`, both in the `B` tier. -/
theorem bytesToHuman_monotone_witness : bthTenths 100 ≤ bthTenths 200 :=
  bytesToHuman_monotone.1 100 200 (by norm_num)
    (by
      have h1 : bth_go ((100 : ℕ) : ℚ) 0 = (100, 0) := by
        rw [bth_go_eq]; norm_num [unitsList]
      have h2 : bth_go ((200 : ℕ) : ℚ) 0 = (200, 0) := by
        rw [bth_go_eq]; norm_num [unitsList]
      unfold bthUnit bthTier
      rw [h1, h2])
